import Mathlib

/-!
# Verification of the match-file discovery and retrieval layer

Shallow embedding of the file classification, listing, filtering and download
logic of `src/files_api.py` (class `FileTypeConstants` and class
`Smite2RallyHereFilesAPI`) and `src/files_api_sdk_extension.py` (class
`FileApiMethods`), together with theorems settling the frozen claims about it.

Filenames, endpoint names and paths are modelled as `List Char`; the backend
(HTTP responses, byte streams) is modelled as explicit oracle inputs; the
local disk as an association list from path to written size; side effects
(network calls, warnings) as an explicit event trace.
-/

namespace FilesApi

/-- Filenames / paths / endpoint tags, as lists of characters. -/
abbrev Str := List Char

/-- Lower-casing of a name, modelling Python `re.IGNORECASE` matching of the
ASCII-literal patterns (both sides compared after case folding). -/
def lowerStr (s : Str) : Str := s.map Char.toLower

/-- Boolean test that the first list is a leading segment of the second
(model of a regex anchored at the start, `re.match`). -/
def strStarts : Str → Str → Bool
  | [], _ => true
  | _ :: _, [] => false
  | a :: as, b :: bs => a = b && strStarts as bs

/-- Boolean test that the first list is a trailing segment of the second. -/
def strEnds (sfx s : Str) : Bool := strStarts sfx.reverse s.reverse

/-- Substring containment, model of Python `needle in hay`. -/
def containsSub (hay needle : Str) : Bool :=
  (List.range (hay.length + 1)).any (fun i => strStarts needle (hay.drop i))

/-- The six file types of `FileTypeConstants` (`files_api.py` lines 13-18).
`None` / UNKNOWN is represented by `Option FileType`. -/
inductive FileType where
  | COMBAT_LOG
  | CHAT_LOG
  | CONSOLE_LOG
  | GAME_SESSION_SUMMARY
  | MATCH_SUMMARY
  | SERVER_METADATA
deriving DecidableEq, Repr

/-- The anchored leading literal of each pattern in `FILE_TYPE_PATTERNS`
(`files_api.py` lines 40-47), already lower-cased for IGNORECASE matching. -/
def typePfx : FileType → Str
  | .COMBAT_LOG => "combatlog_".toList
  | .CHAT_LOG => "chatlog_".toList
  | .CONSOLE_LOG => "consolelog_".toList
  | .GAME_SESSION_SUMMARY => "gamesessionsummary_".toList
  | .MATCH_SUMMARY => "matchsummary_".toList
  | .SERVER_METADATA => "servermetadata_".toList

/-- The trailing literal (escaped dot plus extension) of each pattern. -/
def typeExt : FileType → Str
  | .COMBAT_LOG => ".log".toList
  | .CHAT_LOG => ".log".toList
  | .CONSOLE_LOG => ".log".toList
  | .GAME_SESSION_SUMMARY => ".json".toList
  | .MATCH_SUMMARY => ".json".toList
  | .SERVER_METADATA => ".json".toList

/-- Whether a (lower-cased) string matches `^pfx.*ext` with the regex dot
(any character except a newline): a leading `pfx`, a trailing `ext`, no
overlap between the two, and no newline in between. -/
def patCore (pfx ext l : Str) : Bool :=
  strStarts pfx l && strEnds ext l && decide (pfx.length + ext.length ≤ l.length)
    && ((l.drop pfx.length).take (l.length - pfx.length - ext.length)).all (· ≠ '\n')

/-- Match of the Python pattern `pfx.*ext$` via `re.match` (anchored at the
start; `$` also matches just before a final newline). -/
def patMatch (pfx ext l : Str) : Bool :=
  patCore pfx ext l || (l.getLast? = some '\n' && patCore pfx ext l.dropLast)

/-- Whether `name` matches the `FILE_TYPE_PATTERNS` entry for type `t`
(IGNORECASE: both the literal and the name are compared lower-cased). -/
def typeMatches (t : FileType) (name : Str) : Bool :=
  patMatch (typePfx t) (typeExt t) (lowerStr name)

/-- Iteration order of the `FILE_TYPE_PATTERNS` dict (insertion order). -/
def patternOrder : List FileType :=
  [.COMBAT_LOG, .CHAT_LOG, .CONSOLE_LOG, .GAME_SESSION_SUMMARY,
   .MATCH_SUMMARY, .SERVER_METADATA]

/-- `FileTypeConstants.identify_file_type` (`files_api.py` lines 49-66):
empty names yield `none`; otherwise the first pattern of the table that
matches decides the type; `none` when no pattern matches. -/
def identify_file_type (name : Str) : Option FileType :=
  if name = [] then none
  else patternOrder.find? (fun t => typeMatches t name)

/-- The two endpoint path segments (`files_api.py` lines 26-27). -/
def ENDPOINT_FILE : Str := "file".toList

/-- The developer endpoint path segment. -/
def ENDPOINT_DEVELOPER_FILE : Str := "developer-file".toList

/-- `FileTypeConstants.FILE_TYPE_ENDPOINTS` plus the `.get` default of
`get_endpoints_for_file_type` (`files_api.py` lines 30-37, 68-79): chat logs
live only on the developer endpoint, every other type on both.  (The dict
default for strings outside the table is also both endpoints; our `FileType`
is the closed set of keys, so the default branch is unreachable here.) -/
def get_endpoints_for_file_type : FileType → List Str
  | .CHAT_LOG => [ENDPOINT_DEVELOPER_FILE]
  | _ => [ENDPOINT_FILE, ENDPOINT_DEVELOPER_FILE]

/-- Exceptions of the retrieval layer (`files_api.py` lines 82-94, the
`requests` faults it handles, and the Python builtin `FileNotFoundError`
raised by `rh_fetch_match_by_id` — which is distinct from the repository's
`FileNotFoundException` and is not a subclass of `requests` `HTTPError`). -/
inductive PyErr where
  | httpError (status : Nat)
  | matchNotFound
  | fileNotFound
  | builtinFileNotFound
  | downloadError
  | other
deriving DecidableEq, Repr

/-- Outcome of the backend match lookup `sdk.rh_fetch_match_by_id`
(`smite2_rh_sdk.py` lines 1470-1501): a successful response; the builtin
`FileNotFoundError` it raises itself on a 404 response; an `HTTPError` with
a status code from `raise_for_status`; or any other transport failure. -/
inductive FetchOutcome where
  | success
  | notFound
  | httpError (status : Nat)
  | otherFailure
deriving DecidableEq, Repr

/-- `Smite2RallyHereSDK.rh_fetch_match_by_id` (`smite2_rh_sdk.py` lines
1470-1501), as a function of the lookup's HTTP response (`none` for a
transport failure that raises before a response exists, `some code` for a
response with that status): a 404 response raises the builtin
`FileNotFoundError` *before* `raise_for_status` runs, `raise_for_status`
then raises `HTTPError` for the remaining 4xx/5xx statuses, and any other
response returns the match body. -/
def rh_fetch_match_by_id (resp : Option Nat) : FetchOutcome :=
  match resp with
  | none => .otherFailure
  | some code =>
    if code = 404 then .notFound
    else if 400 ≤ code then .httpError code
    else .success

/-- One remote file record as returned by a listing call.  The Python dicts
may lack the keys, hence the `Option`s; `api_type` is the endpoint tag
attached at listing time. -/
structure FileInfo where
  name : Option Str := none
  sessionId : Option Str := none
  api_type : Option Str := none
deriving DecidableEq, Repr

/-- Attach the endpoint tag, model of `file_info["api_type"] = endpoint`. -/
def tagApi (endp : Str) (f : FileInfo) : FileInfo := { f with api_type := some endp }

/-- Observable side effects: the backend match lookup, a listing request to
one endpoint, a download request, and a printed warning. -/
inductive Ev where
  | fetchMatchCall
  | listCall (endp : Str)
  | dlCall (endp : Str) (name : Str)
  | warn (what : Str)
deriving DecidableEq, Repr

/-- The remote backend as an oracle: the behaviour of the match lookup and,
per endpoint tag, of the file-listing request (`.ok files` for a 2xx
response body, `.error` for a raised transport fault). -/
structure Backend where
  fetchMatch : FetchOutcome
  listFiles : Str → Except PyErr (List FileInfo)

/-- `Smite2RallyHereFilesAPI.check_match_exists` (`files_api.py` lines
143-163): `True` on a successful lookup; its `except` clause catches only
`requests.exceptions.HTTPError`, returning `False` when that error's status
is 404 and re-raising it otherwise; every non-`HTTPError` failure —
including the builtin `FileNotFoundError` that `rh_fetch_match_by_id`
raises on a real 404 response — propagates uncaught. -/
def check_match_exists (fetch : FetchOutcome) : Except PyErr Bool :=
  match fetch with
  | .success => .ok true
  | .notFound => .error .builtinFileNotFound
  | .httpError s => if s = 404 then .ok false else .error (.httpError s)
  | .otherFailure => .error .other

/-- `FileApiMethods.rh_check_match_exists` (`files_api_sdk_extension.py`
lines 59-82): issues the lookup without `raise_for_status` and returns
`response.status_code == 200`. -/
def rh_check_match_exists (status : Nat) : Bool := status == 200

/-- `Smite2RallyHereFilesAPI.list_match_files` (`files_api.py` lines
165-205): gate first (raising `MatchNotFoundException` on `False`), then one
listing request to the given endpoint, tagging each record with `api_type`.
Returns the result together with the trace of network calls made. -/
def list_match_files (b : Backend) (endp : Str) :
    Except PyErr (List FileInfo) × List Ev :=
  match check_match_exists b.fetchMatch with
  | .error e => (.error e, [.fetchMatchCall])
  | .ok false => (.error .matchNotFound, [.fetchMatchCall])
  | .ok true =>
    match b.listFiles endp with
    | .error e => (.error e, [.fetchMatchCall, .listCall endp])
    | .ok files => (.ok (files.map (tagApi endp)), [.fetchMatchCall, .listCall endp])

/-- One endpoint step of `list_all_match_files` (`files_api.py` lines
819-840): a successful listing appends its tagged records; a failure is
caught, prints a warning, and contributes nothing. -/
def listAllStep (b : Backend) (acc : List FileInfo × List Ev) (endp : Str) :
    List FileInfo × List Ev :=
  match b.listFiles endp with
  | .ok files => (acc.1 ++ files.map (tagApi endp), acc.2 ++ [.listCall endp])
  | .error _ => (acc.1, acc.2 ++ [.listCall endp, .warn endp])

/-- `Smite2RallyHereFilesAPI.list_all_match_files` (`files_api.py` lines
793-842): the existence gate once (raising `MatchNotFoundException` on
`False`), then one inline listing request per endpoint in the fixed order
`file`, `developer-file`, concatenating tagged results and converting each
per-endpoint failure into a warning. -/
def list_all_match_files (b : Backend) :
    Except PyErr (List FileInfo) × List Ev :=
  match check_match_exists b.fetchMatch with
  | .error e => (.error e, [.fetchMatchCall])
  | .ok false => (.error .matchNotFound, [.fetchMatchCall])
  | .ok true =>
    let r := [ENDPOINT_FILE, ENDPOINT_DEVELOPER_FILE].foldl (listAllStep b)
      ([], [.fetchMatchCall])
    (.ok r.1, r.2)

/-- `os.path.join(dir, name)` for the cases arising here: an absolute `name`
discards `dir`; an empty `dir` yields `name`; otherwise a single slash is
inserted unless `dir` already ends in one. -/
def osJoin (dir name : Str) : Str :=
  if strStarts ['/'] name then name
  else if dir = [] then name
  else if dir.getLast? = some '/' then dir ++ name
  else dir ++ '/' :: name

/-- `os.path.basename`: the part after the last slash. -/
def basename (p : Str) : Str := (p.reverse.takeWhile (· ≠ '/')).reverse

/-- The local filesystem as an association list from path to the number of
bytes currently stored at that path. -/
abbrev Disk := List (Str × Nat)

/-- Write (create or truncate-and-replace) a file of `n` bytes at `p`. -/
def diskSet : Disk → Str → Nat → Disk
  | [], p, n => [(p, n)]
  | (q, m) :: d, p, n => if q = p then (p, n) :: d else (q, m) :: diskSet d p n

/-- Size of the file at `p`, if one exists. -/
def diskGet : Disk → Str → Option Nat
  | [], _ => none
  | (q, m) :: d, p => if q = p then some m else diskGet d p

/-- Running totals of the loop variable `downloaded` after each chunk
(`downloaded += len(chunk)`). -/
def cumSums : Nat → List Nat → List Nat
  | _, [] => []
  | acc, c :: cs => (acc + c) :: cumSums (acc + c) cs

/-- A streamed HTTP download as seen by `_download_file`: whether
`raise_for_status` passes, the `content-length` header if present, the sizes
of the chunks `iter_content` yields, and whether the stream raises after
those chunks instead of ending cleanly. -/
structure DlResp where
  ok : Bool
  contentLength : Option Nat := none
  chunks : List Nat := []
  midStreamFail : Bool := false
deriving DecidableEq, Repr

/-- Result of one `_download_file` run: the disk afterwards, the returned
path or the raised `DownloadError`, and the progress-callback invocations
`(basename, bytes_so_far, total_bytes)` in order. -/
structure DlRun where
  disk : Disk
  result : Except PyErr Str
  calls : List (Str × Nat × Nat)
deriving Repr

/-- `Smite2RallyHereFilesAPI._download_file` (`files_api.py` lines 744-791).
On a non-2xx response `raise_for_status` fires before the file is opened, so
the disk is untouched.  Otherwise the file is created and every delivered
chunk appended; after each chunk the callback fires if supplied and the
reported content length is positive; a clean end of stream adds the final
`(basename, downloaded, downloaded)` call and returns the path.  Any failure
is re-raised as `DownloadError`; a mid-stream failure leaves the partially
written file in place (the code performs no deletion).  Chunk granularity:
a failing write of one chunk is modelled as the stream failing before it. -/
def download_file_run (d : Disk) (output_path : Str) (resp : DlResp)
    (withCb : Bool) : DlRun :=
  if resp.ok = false then
    { disk := d, result := .error .downloadError, calls := [] }
  else
    let total := resp.contentLength.getD 0
    let written := resp.chunks.sum
    let perChunk : List (Str × Nat × Nat) :=
      if withCb && decide (0 < total) then
        (cumSums 0 resp.chunks).map (fun s => (basename output_path, s, total))
      else []
    let d' := diskSet d output_path written
    if resp.midStreamFail then
      { disk := d', result := .error .downloadError, calls := perChunk }
    else
      { disk := d', result := .ok output_path,
        calls := if withCb then
            perChunk ++ [(basename output_path, written, written)]
          else perChunk }

/-- The per-descriptor closure `download_single_file` inside
`download_match_files` (`files_api.py` lines 877-906): an absent or empty
`name` returns `None` at once (no request, no warning); otherwise the target
path comes from the optional filename pattern, the URL endpoint from
`api_type` (default `"file"`), and any failure of `_download_file` is caught
and logged as a warning, yielding `None`. -/
def download_single_file (net : Str → Str → DlResp) (outdir : Str)
    (pat : Option (Str → Str)) (cb : Bool) (d : Disk) (f : FileInfo) :
    Disk × Option Str × List Ev :=
  let filename := f.name.getD []
  if filename = [] then (d, none, [])
  else
    let output_filename := match pat with | some g => g filename | none => filename
    let output_path := osJoin outdir output_filename
    let api_type := f.api_type.getD ENDPOINT_FILE
    let run := download_file_run d output_path (net api_type filename) cb
    match run.result with
    | .ok p => (run.disk, some p, [.dlCall api_type filename])
    | .error _ => (run.disk, none, [.dlCall api_type filename, .warn filename])

/-- `Smite2RallyHereFilesAPI.download_match_files` (`files_api.py` lines
844-922).  The sequential branch (`max_concurrent_downloads <= 1`) appends
each non-`None` result in input order; the concurrent branch collects
`executor.map` results, which are likewise in input order, and filters the
`None`s — both branches produce this value.  Every per-file failure is
caught inside `download_single_file`, so the call itself always returns
normally (`.ok`). -/
def download_match_files_go (net : Str → Str → DlResp) (outdir : Str)
    (pat : Option (Str → Str)) (cb : Bool) :
    Disk → List FileInfo → Disk × List Str × List Ev
  | d, [] => (d, [], [])
  | d, f :: fs =>
    let r := download_single_file net outdir pat cb d f
    let rest := download_match_files_go net outdir pat cb r.1 fs
    (rest.1, r.2.1.toList ++ rest.2.1, r.2.2 ++ rest.2.2)

/-- Entry point of `download_match_files`; always returns normally because
every per-file failure is absorbed inside `download_single_file`. -/
def download_match_files (net : Str → Str → DlResp) (files : List FileInfo)
    (outdir : Str) (pat : Option (Str → Str)) (cb : Bool) (d : Disk) :
    Except PyErr (Disk × List Str × List Ev) :=
  .ok (download_match_files_go net outdir pat cb d files)

/-- The inline download loop shared (textually duplicated) by
`download_all_match_files` (`files_api.py` lines 362-403) and
`download_match_file_by_type` (lines 699-742): skip records with an absent
or empty `name` silently; download the rest one by one, catching each
failure as a warning and collecting the successful paths in order.  The
inline body is the same stream-write as `_download_file` without a progress
callback. -/
def downloadAllLoop (net : Str → Str → DlResp) (outdir : Str)
    (pat : Option (Str → Str)) : Disk → List FileInfo → Disk × List Str × List Ev
  | d, [] => (d, [], [])
  | d, f :: fs =>
    let filename := f.name.getD []
    if filename = [] then downloadAllLoop net outdir pat d fs
    else
      let output_filename := match pat with | some g => g filename | none => filename
      let output_path := osJoin outdir output_filename
      let api_type := f.api_type.getD ENDPOINT_FILE
      let run := download_file_run d output_path (net api_type filename) false
      let rest := downloadAllLoop net outdir pat run.disk fs
      match run.result with
      | .ok p => (rest.1, p :: rest.2.1, .dlCall api_type filename :: rest.2.2)
      | .error _ =>
        (rest.1, rest.2.1, .dlCall api_type filename :: .warn filename :: rest.2.2)

/-- `Smite2RallyHereFilesAPI.download_all_match_files` (`files_api.py` lines
309-403): list both endpoints through `list_match_files` (each failure —
including the gate's `MatchNotFoundException` — caught as a warning),
re-tag, filter by the requested type strings when a non-empty list is given
(a record whose name matches no pattern never passes the filter), then run
the download loop. -/
def download_all_match_files (b : Backend) (net : Str → Str → DlResp)
    (outdir : Str) (fileTypes : Option (List FileType))
    (pat : Option (Str → Str)) (d : Disk) : Disk × List Str × List Ev :=
  let gather := [ENDPOINT_FILE, ENDPOINT_DEVELOPER_FILE].foldl
    (fun acc endp =>
      match list_match_files b endp with
      | (.ok files, evs) => (acc.1 ++ files.map (tagApi endp), acc.2 ++ evs)
      | (.error _, evs) => (acc.1, acc.2 ++ evs ++ [.warn endp]))
    ([], [])
  let all_files :=
    match fileTypes with
    | none => gather.1
    | some fts =>
      if fts = [] then gather.1
      else gather.1.filter (fun f =>
        match identify_file_type (f.name.getD []) with
        | some t => fts.contains t
        | none => false)
  let run := downloadAllLoop net outdir pat d all_files
  (run.1, run.2.1, gather.2 ++ run.2.2)

/-- One endpoint pass of `download_match_file_by_type` (`files_api.py` lines
663-690): list via `list_match_files` (any failure caught as a warning,
contributing nothing), tag, keep the records whose name classifies to the
requested type, then — only when a truthy `session_id` is given and the
type-matched set is non-empty — keep the subset whose names contain the
session id, but fall back to the whole type-matched set when that subset is
empty. -/
def byTypeEndpointPass (b : Backend) (ft : FileType) (sid : Option Str)
    (endp : Str) : List FileInfo × List Ev :=
  match list_match_files b endp with
  | (.error _, evs) => ([], evs ++ [.warn endp])
  | (.ok files, evs) =>
    let tagged := files.map (tagApi endp)
    let type_files := tagged.filter
      (fun f => decide (identify_file_type (f.name.getD []) = some ft))
    let selected :=
      match sid with
      | none => type_files
      | some s =>
        if s ≠ [] ∧ type_files ≠ [] then
          let filtered := type_files.filter (fun f => containsSub (f.name.getD []) s)
          if filtered ≠ [] then filtered else type_files
        else type_files
    (selected, evs)

/-- The accumulation of the per-endpoint passes of
`download_match_file_by_type` into `all_files` (plus the event trace). -/
def byTypeGather (b : Backend) (ft : FileType) (sid : Option Str) :
    List FileInfo × List Ev :=
  (get_endpoints_for_file_type ft).foldl
    (fun acc endp =>
      let c := byTypeEndpointPass b ft sid endp
      (acc.1 ++ c.1, acc.2 ++ c.2))
    ([], [])

/-- `Smite2RallyHereFilesAPI.download_match_file_by_type` (`files_api.py`
lines 627-742): gather the per-endpoint selections over
`get_endpoints_for_file_type`, raise `FileNotFoundException` when nothing
was gathered, otherwise run the download loop over the gathered records. -/
def download_match_file_by_type (b : Backend) (net : Str → Str → DlResp)
    (ft : FileType) (sid : Option Str) (outdir : Str)
    (pat : Option (Str → Str)) (d : Disk) :
    Disk × Except PyErr (List Str) × List Ev :=
  if (byTypeGather b ft sid).1 = [] then
    (d, .error .fileNotFound, (byTypeGather b ft sid).2)
  else
    ((downloadAllLoop net outdir pat d (byTypeGather b ft sid).1).1,
     .ok (downloadAllLoop net outdir pat d (byTypeGather b ft sid).1).2.1,
     (byTypeGather b ft sid).2
       ++ (downloadAllLoop net outdir pat d (byTypeGather b ft sid).1).2.2)

/-- Strip a trailing extension: everything from the last dot on; a string
without a dot is returned unchanged. -/
def dropExtension (s : Str) : Str :=
  match s.reverse.dropWhile (· ≠ '.') with
  | [] => s
  | _ :: rest => rest.reverse

/-- The known type leading literals of §4.1, in their on-disk spelling. -/
def KNOWN_PFXS : List Str :=
  ["CombatLog_".toList, "ChatLog_".toList, "ConsoleLog_".toList,
   "GameSessionSummary_".toList, "MatchSummary_".toList, "ServerMetadata_".toList]

/-- Modelled from the spec: `FileTypeConstants.extract_session_id` is
invoked at `files_api.py` lines 464 and 554 but its definition is not among
the source files.  Per §4.1 it takes a filename and the known type leading
literals, strips the matched literal and the trailing extension, and returns
the remainder exactly when its length is consistent with a UUID (36
characters), otherwise null (also when no literal matches). -/
def extract_session_id (pfxs : List Str) (name : Str) : Option Str :=
  match pfxs.find? (fun p => strStarts p name) with
  | none => none
  | some p =>
    let rest := dropExtension (name.drop p.length)
    if rest.length = 36 then some rest else none

/-- The session-resolution step of `download_combat_log` /
`download_chat_log` (`files_api.py` lines 460-467 and 550-557): the
endpoint metadata's `sessionId` when truthy, else the value parsed out of
the filename. -/
def resolve_session_id (metaSid : Option Str) (filename : Str) : Option Str :=
  match metaSid with
  | some s => if s ≠ [] then some s else extract_session_id KNOWN_PFXS filename
  | none => extract_session_id KNOWN_PFXS filename

/-- Specification-side characterization of one batch-download slot (default
naming, `filename_pattern = None`): the local path produced for a
descriptor, or `none` when the name is absent/empty or the transfer fails.
To be compared against what `download_match_files` actually returns. -/
def succPath (net : Str → Str → DlResp) (outdir : Str) (f : FileInfo) :
    Option Str :=
  match f.name with
  | none => none
  | some n =>
    if n = [] then none
    else
      let resp := net (f.api_type.getD ENDPOINT_FILE) n
      if resp.ok && !resp.midStreamFail then some (osJoin outdir n) else none

/-- Specification-side characterization of the events one batch-download
slot contributes: nothing for an absent/empty name, the download request
for a success, the request plus a warning for a failure. -/
def fileEvs (net : Str → Str → DlResp) (f : FileInfo) : List Ev :=
  match f.name with
  | none => []
  | some n =>
    if n = [] then []
    else
      let a := f.api_type.getD ENDPOINT_FILE
      if (net a n).ok && !(net a n).midStreamFail then [.dlCall a n]
      else [.dlCall a n, .warn n]

/-! ## Concrete fixtures for closed instances -/

/-- A combat-log record as the primary endpoint returns it. -/
def primRec : FileInfo := { name := some "CombatLog_X.log".toList }

/-- A chat-log record as the developer endpoint returns it. -/
def devRec : FileInfo := { name := some "ChatLog_Y.log".toList }

/-- A backend where the match exists and both endpoints list one file. -/
def bOk : Backend :=
  { fetchMatch := .success,
    listFiles := fun ep => if ep = ENDPOINT_FILE then .ok [primRec] else .ok [devRec] }

/-- A backend where the developer listing raises and the primary succeeds. -/
def bDevFail : Backend :=
  { fetchMatch := .success,
    listFiles := fun ep => if ep = ENDPOINT_FILE then .ok [primRec] else .error .other }

/-- A backend where the primary listing raises and the developer succeeds. -/
def bPrimFail : Backend :=
  { fetchMatch := .success,
    listFiles := fun ep => if ep = ENDPOINT_FILE then .error .other else .ok [devRec] }

/-- A backend whose match lookup hits a 404 response, i.e. whose
`rh_fetch_match_by_id` call raises the builtin `FileNotFoundError`. -/
def bNotFound : Backend := { fetchMatch := .notFound, listFiles := fun _ => .ok [] }

/-- A backend where only the primary endpoint holds one combat log. -/
def bCombatOnly : Backend :=
  { fetchMatch := .success,
    listFiles := fun ep => if ep = ENDPOINT_FILE then .ok [primRec] else .ok [] }

/-- A transport where every download streams one 10-byte chunk. -/
def netOk : Str → Str → DlResp := fun _ _ => { ok := true, chunks := [10] }

/-- A transport where exactly the file `f2.log` fails with a non-2xx
response and every other transfer succeeds. -/
def netFailSecond : Str → Str → DlResp := fun _ n =>
  if n = "f2.log".toList then { ok := false } else { ok := true, chunks := [5] }

/-- Three plain descriptors for the batch-download scenarios. -/
def fileRec1 : FileInfo := { name := some "f1.log".toList }

/-- Second descriptor, the one whose transfer is made to fail. -/
def fileRec2 : FileInfo := { name := some "f2.log".toList }

/-- Third descriptor. -/
def fileRec3 : FileInfo := { name := some "f3.log".toList }

/-- A descriptor whose `name` field is the empty string. -/
def emptyNameRec : FileInfo := { name := some [] }

/-- A 2xx response of 100 announced bytes that fails after delivering one
60-byte chunk. -/
def respMidFail : DlResp :=
  { ok := true, contentLength := some 100, chunks := [60], midStreamFail := true }

/-- A clean 2xx response of two chunks with a content length. -/
def respTwoChunks : DlResp := { ok := true, contentLength := some 100, chunks := [60, 40] }

/-- A clean 2xx response of two chunks without a content length. -/
def respNoLength : DlResp := { ok := true, contentLength := none, chunks := [60, 40] }

/-! ## Helper lemmas on anchored matching -/

theorem strStarts_append (p : Str) :
    ∀ (l m : Str), strStarts p l = true → strStarts p (l ++ m) = true := by
  induction p with
  | nil => intro l m _; rfl
  | cons a as ih =>
    intro l m h
    cases l with
    | nil => simp [strStarts] at h
    | cons b bs =>
      simp only [strStarts, Bool.and_eq_true, decide_eq_true_eq] at h
      simp only [List.cons_append, strStarts, Bool.and_eq_true, decide_eq_true_eq]
      exact ⟨h.1, ih bs m h.2⟩

theorem strStarts_dropLast (p l : Str) (h : strStarts p l.dropLast = true) :
    strStarts p l = true := by
  cases l with
  | nil => exact h
  | cons b bs =>
    have hne : b :: bs ≠ [] := by simp
    have := strStarts_append p (b :: bs).dropLast [(b :: bs).getLast hne] h
    rwa [List.dropLast_append_getLast hne] at this

theorem strStarts_comparable :
    ∀ (l p q : Str), strStarts p l = true → strStarts q l = true →
      strStarts p q = true ∨ strStarts q p = true := by
  intro l
  induction l with
  | nil =>
    intro p q hp hq
    cases p with
    | nil => exact Or.inl rfl
    | cons a as => simp [strStarts] at hp
  | cons c cs ih =>
    intro p q hp hq
    cases p with
    | nil => exact Or.inl rfl
    | cons a as =>
      cases q with
      | nil => exact Or.inr rfl
      | cons b bs =>
        simp only [strStarts, Bool.and_eq_true, decide_eq_true_eq] at hp hq
        obtain ⟨rfl, hp'⟩ := hp
        obtain ⟨rfl, hq'⟩ := hq
        rcases ih as bs hp' hq' with h | h
        · exact Or.inl (by simp [strStarts, h])
        · exact Or.inr (by simp [strStarts, h])

theorem strStarts_excl (p q l : Str) (hpq : strStarts p q = false)
    (hqp : strStarts q p = false) (hp : strStarts p l = true)
    (hq : strStarts q l = true) : False := by
  rcases strStarts_comparable l p q hp hq with h | h
  · rw [hpq] at h; exact Bool.false_ne_true h
  · rw [hqp] at h; exact Bool.false_ne_true h

theorem typeMatches_starts (t : FileType) (name : Str)
    (h : typeMatches t name = true) :
    strStarts (typePfx t) (lowerStr name) = true := by
  unfold typeMatches patMatch patCore at h
  simp only [Bool.or_eq_true, Bool.and_eq_true] at h
  rcases h with ⟨⟨⟨h1, _⟩, _⟩, _⟩ | ⟨_, ⟨⟨⟨h1, _⟩, _⟩, _⟩⟩
  · exact h1
  · exact strStarts_dropLast _ _ h1

/-! ## Claim C2 -/

/-- C2: file-type classification is a pure function of the filename —
applying `identify_file_type` twice to the same name yields the same result;
at most one of the six typed patterns matches any given name (the anchored
case-insensitive leading literals are mutually exclusive); and the
classification returns UNKNOWN (`none`) for every name matched by no
pattern. -/
theorem claim_C2 (name : Str) :
    identify_file_type name = identify_file_type name
    ∧ (∀ t1 t2 : FileType, typeMatches t1 name = true → typeMatches t2 name = true →
        t1 = t2)
    ∧ ((∀ t : FileType, typeMatches t name = false) → identify_file_type name = none) := by
  refine ⟨rfl, ?_, ?_⟩
  · intro t1 t2 h1 h2
    have s1 := typeMatches_starts t1 name h1
    have s2 := typeMatches_starts t2 name h2
    cases t1 <;> cases t2 <;> first
      | rfl
      | exact (strStarts_excl _ _ _ (by decide) (by decide) s1 s2).elim
  · intro hall
    unfold identify_file_type
    split
    · rfl
    · exact List.find?_eq_none.mpr (fun t _ => by simp [hall t])

/-- Closed instance of C2: the exclusivity part applied at a concrete
combat-log name, and the UNKNOWN part applied at a name matching no
pattern. -/
theorem claim_C2_witness :
    FileType.COMBAT_LOG = FileType.COMBAT_LOG
    ∧ identify_file_type "readme.txt".toList = none := by
  constructor
  · exact (claim_C2 "CombatLog_abc.log".toList).2.1 .COMBAT_LOG .COMBAT_LOG
      (by decide) (by decide)
  · exact (claim_C2 "readme.txt".toList).2.2 (fun t => by cases t <;> decide)

/-! ## Claims C3 and C4 -/

/-- C3: `list_all_match_files` calls the existence gate exactly once before
any listing call, queries the primary `file` endpoint before the
`developer-file` endpoint, tags every returned descriptor with its source
endpoint in `api_type`, and returns the primary-then-developer
concatenation preserving each endpoint's native order; tagging preserves
names, so a name listed by both endpoints yields two descriptors (no
de-duplication). -/
theorem claim_C3 (b : Backend) (P D : List FileInfo)
    (hgate : b.fetchMatch = .success)
    (hP : b.listFiles ENDPOINT_FILE = .ok P)
    (hD : b.listFiles ENDPOINT_DEVELOPER_FILE = .ok D) :
    (list_all_match_files b).1 =
        .ok (P.map (tagApi ENDPOINT_FILE) ++ D.map (tagApi ENDPOINT_DEVELOPER_FILE))
    ∧ (list_all_match_files b).2 =
        [.fetchMatchCall, .listCall ENDPOINT_FILE, .listCall ENDPOINT_DEVELOPER_FILE]
    ∧ (P.map (tagApi ENDPOINT_FILE)
        ++ D.map (tagApi ENDPOINT_DEVELOPER_FILE)).map FileInfo.name
        = P.map FileInfo.name ++ D.map FileInfo.name
    ∧ (∀ f ∈ P.map (tagApi ENDPOINT_FILE), f.api_type = some ENDPOINT_FILE)
    ∧ (∀ f ∈ D.map (tagApi ENDPOINT_DEVELOPER_FILE),
        f.api_type = some ENDPOINT_DEVELOPER_FILE) := by
  refine ⟨?_, ?_, ?_, ?_, ?_⟩
  · simp [list_all_match_files, check_match_exists, hgate, listAllStep, hP, hD]
  · simp [list_all_match_files, check_match_exists, hgate, listAllStep, hP, hD]
  · have hcomp : ∀ e : Str, FileInfo.name ∘ tagApi e = FileInfo.name := by
      intro e; funext f; rfl
    simp [hcomp]
  · intro f hf
    simp only [List.mem_map] at hf
    obtain ⟨g, _, rfl⟩ := hf
    rfl
  · intro f hf
    simp only [List.mem_map] at hf
    obtain ⟨g, _, rfl⟩ := hf
    rfl

/-- Closed instance of C3 at a backend listing one file per endpoint. -/
theorem claim_C3_witness :
    (list_all_match_files bOk).1 =
      .ok [tagApi ENDPOINT_FILE primRec, tagApi ENDPOINT_DEVELOPER_FILE devRec]
    ∧ (list_all_match_files bOk).2 =
      [.fetchMatchCall, .listCall ENDPOINT_FILE, .listCall ENDPOINT_DEVELOPER_FILE] := by
  have h := claim_C3 bOk [primRec] [devRec] rfl rfl rfl
  exact ⟨h.1, h.2.1⟩

/-- C4: per-endpoint listing failure is isolated — when one endpoint's
listing raises and the other succeeds, `list_all_match_files` returns
normally with exactly the successful endpoint's tagged descriptors, and the
failed endpoint produces a warning side effect and contributes zero
descriptors. -/
theorem claim_C4 (b : Backend) :
    (∀ (P : List FileInfo) (e : PyErr),
        b.fetchMatch = .success → b.listFiles ENDPOINT_FILE = .ok P →
        b.listFiles ENDPOINT_DEVELOPER_FILE = .error e →
        (list_all_match_files b).1 = .ok (P.map (tagApi ENDPOINT_FILE))
        ∧ (list_all_match_files b).2 =
            [.fetchMatchCall, .listCall ENDPOINT_FILE,
             .listCall ENDPOINT_DEVELOPER_FILE, .warn ENDPOINT_DEVELOPER_FILE])
    ∧ (∀ (D : List FileInfo) (e : PyErr),
        b.fetchMatch = .success → b.listFiles ENDPOINT_FILE = .error e →
        b.listFiles ENDPOINT_DEVELOPER_FILE = .ok D →
        (list_all_match_files b).1 = .ok (D.map (tagApi ENDPOINT_DEVELOPER_FILE))
        ∧ (list_all_match_files b).2 =
            [.fetchMatchCall, .listCall ENDPOINT_FILE, .warn ENDPOINT_FILE,
             .listCall ENDPOINT_DEVELOPER_FILE]) := by
  constructor <;>
    · intro X e hgate h1 h2
      constructor <;>
        simp [list_all_match_files, check_match_exists, hgate, listAllStep, h1, h2]

/-- Closed instance of C4: the developer endpoint failing (and, conversely,
the primary endpoint failing) leaves exactly the other endpoint's
descriptors, with a warning and no exception. -/
theorem claim_C4_witness :
    (list_all_match_files bDevFail).1 = .ok [tagApi ENDPOINT_FILE primRec]
    ∧ .warn ENDPOINT_DEVELOPER_FILE ∈ (list_all_match_files bDevFail).2
    ∧ (list_all_match_files bPrimFail).1 = .ok [tagApi ENDPOINT_DEVELOPER_FILE devRec]
    ∧ .warn ENDPOINT_FILE ∈ (list_all_match_files bPrimFail).2 := by
  have h1 := (claim_C4 bDevFail).1 [primRec] .other rfl rfl rfl
  have h2 := (claim_C4 bPrimFail).2 [devRec] .other rfl rfl rfl
  refine ⟨h1.1, ?_, h2.1, ?_⟩
  · rw [h1.2]; simp
  · rw [h2.2]; simp

/-! ## Claim C5 -/

/-- C5 counterexample: on a real 404 lookup response the gate does not
return `false` — `rh_fetch_match_by_id` raises the builtin
`FileNotFoundError` (never an `HTTPError` with status 404), which the
`except` clause of `check_match_exists` does not catch, so the failure
propagates instead; and the gate variant
`FileApiMethods.rh_check_match_exists` returns `False` on a 500 response,
swallowing a non-404 fault into a false result. -/
theorem claim_C5_cex :
    rh_fetch_match_by_id (some 404) = .notFound
    ∧ check_match_exists (rh_fetch_match_by_id (some 404))
        = .error .builtinFileNotFound
    ∧ check_match_exists (rh_fetch_match_by_id (some 404)) ≠ .ok false
    ∧ rh_check_match_exists 500 = false ∧ (500 : Nat) ≠ 404 :=
  ⟨rfl, rfl, fun h => Except.noConfusion h, rfl, by decide⟩

/-- C5 amended: the match-existence gate never returns `false` through the
real lookup — on a 404 response `rh_fetch_match_by_id` raises the builtin
`FileNotFoundError` before `raise_for_status`, so an `HTTPError` with
status 404 is unreachable and the 404-to-False `except` branch of
`check_match_exists` is dead code; the gate propagates that failure (and
non-404 `HTTPError`s and transport failures) unchanged and returns `true`
on a successful sub-400 lookup; `list_match_files` then propagates the
lookup failure without performing any listing call (its
`MatchNotFoundException` branch is likewise unreachable through the real
lookup); and the variant `FileApiMethods.rh_check_match_exists` returns
`status == 200`, reporting `false` for every non-200 response and thereby
swallowing non-404 faults into a false result. -/
theorem claim_C5_amended :
    (∀ status : Nat, rh_fetch_match_by_id (some status) ≠ .httpError 404)
    ∧ (∀ resp : Option Nat,
        check_match_exists (rh_fetch_match_by_id resp) ≠ .ok false)
    ∧ check_match_exists (rh_fetch_match_by_id (some 404))
        = .error .builtinFileNotFound
    ∧ (∀ code : Nat, code < 400 →
        check_match_exists (rh_fetch_match_by_id (some code)) = .ok true)
    ∧ (∀ code : Nat, 400 ≤ code → code ≠ 404 →
        check_match_exists (rh_fetch_match_by_id (some code))
          = .error (.httpError code))
    ∧ check_match_exists (rh_fetch_match_by_id none) = .error .other
    ∧ (∀ (b : Backend) (endp : Str), b.fetchMatch = .notFound →
        (list_match_files b endp).1 = .error .builtinFileNotFound
        ∧ (list_match_files b endp).2 = [.fetchMatchCall])
    ∧ (∀ status : Nat, rh_check_match_exists status = true ↔ status = 200) := by
  refine ⟨?_, ?_, rfl, ?_, ?_, rfl, ?_, ?_⟩
  · intro status h
    have h' : (if status = 404 then FetchOutcome.notFound
        else if 400 ≤ status then FetchOutcome.httpError status
        else FetchOutcome.success) = FetchOutcome.httpError 404 := h
    by_cases h1 : status = 404
    · rw [if_pos h1] at h'
      exact FetchOutcome.noConfusion h'
    · rw [if_neg h1] at h'
      by_cases h2 : 400 ≤ status
      · rw [if_pos h2] at h'
        injection h' with h3
        exact h1 h3
      · rw [if_neg h2] at h'
        exact FetchOutcome.noConfusion h'
  · intro resp h
    cases resp with
    | none => exact Except.noConfusion h
    | some code =>
      by_cases h1 : code = 404
      · rw [show rh_fetch_match_by_id (some code) = .notFound from by
          simp [rh_fetch_match_by_id, h1]] at h
        exact Except.noConfusion h
      · by_cases h2 : 400 ≤ code
        · rw [show rh_fetch_match_by_id (some code) = .httpError code from by
            simp [rh_fetch_match_by_id, h1, h2]] at h
          rw [show check_match_exists (.httpError code)
              = .error (.httpError code) from by
            simp [check_match_exists, h1]] at h
          exact Except.noConfusion h
        · rw [show rh_fetch_match_by_id (some code) = .success from by
            simp [rh_fetch_match_by_id, h1, h2]] at h
          injection h with h3
          exact Bool.noConfusion h3
  · intro code hc
    have h1 : code ≠ 404 := by omega
    have h2 : ¬ 400 ≤ code := by omega
    simp [rh_fetch_match_by_id, check_match_exists, h1, h2]
  · intro code h2 h1
    simp [rh_fetch_match_by_id, check_match_exists, h1, h2]
  · intro b endp hb
    constructor <;> simp [list_match_files, check_match_exists, hb]
  · intro status
    simp [rh_check_match_exists]

/-- Closed instance of C5 (amended): a 404 yields the propagated builtin
failure (not `false`), 200 yields `true`, 500 propagates as an `HTTPError`,
and the lister forwards the 404 failure with no listing call. -/
theorem claim_C5_witness :
    check_match_exists (rh_fetch_match_by_id (some 404)) ≠ .ok false
    ∧ check_match_exists (rh_fetch_match_by_id (some 200)) = .ok true
    ∧ check_match_exists (rh_fetch_match_by_id (some 500))
        = .error (.httpError 500)
    ∧ (list_match_files bNotFound ENDPOINT_FILE).1 = .error .builtinFileNotFound
    ∧ (list_match_files bNotFound ENDPOINT_FILE).2 = [.fetchMatchCall] := by
  have h := claim_C5_amended
  have hl := h.2.2.2.2.2.2.1 bNotFound ENDPOINT_FILE rfl
  exact ⟨h.2.1 (some 404), h.2.2.2.1 200 (by decide),
    h.2.2.2.2.1 500 (by decide) (by decide), hl.1, hl.2⟩

/-! ## Claim C1 -/

theorem diskGet_diskSet (d : Disk) (p : Str) (n : Nat) :
    diskGet (diskSet d p n) p = some n := by
  induction d with
  | nil => simp [diskSet, diskGet]
  | cons hd tl ih =>
    obtain ⟨q, m⟩ := hd
    by_cases h : q = p <;> simp [diskSet, diskGet, h, ih]

/-- C1 counterexample: a request announcing 100 bytes that fails after
streaming one 60-byte chunk is reported as a `DownloadError`, yet the
60-byte truncated file remains on disk at the target path — the code
performs no deletion, so the claim that no partial file remains after a
mid-transfer failure is false. -/
theorem claim_C1_cex :
    (download_file_run [] "out.log".toList respMidFail false).result
        = .error .downloadError
    ∧ diskGet (download_file_run [] "out.log".toList respMidFail false).disk
        "out.log".toList = some 60
    ∧ respMidFail.contentLength = some 100 ∧ (60 : Nat) ≠ 100 :=
  ⟨rfl, rfl, rfl, by decide⟩

/-- C1 amended: a failure detected before streaming begins (non-2xx
response) reports `DownloadError` with the disk untouched, so no partial
file is created; but a mid-stream failure reports `DownloadError` while the
partially written file (the delivered bytes) remains at the target path —
the downloader does not delete it; on a completed stream the full content
is at the returned path. -/
theorem claim_C1_amended (d : Disk) (path : Str) (resp : DlResp) (cb : Bool) :
    (resp.ok = false →
        (download_file_run d path resp cb).disk = d
        ∧ (download_file_run d path resp cb).result = .error .downloadError)
    ∧ (resp.ok = true → resp.midStreamFail = true →
        (download_file_run d path resp cb).result = .error .downloadError
        ∧ diskGet (download_file_run d path resp cb).disk path
            = some resp.chunks.sum)
    ∧ (resp.ok = true → resp.midStreamFail = false →
        (download_file_run d path resp cb).result = .ok path
        ∧ diskGet (download_file_run d path resp cb).disk path
            = some resp.chunks.sum) := by
  refine ⟨?_, ?_, ?_⟩
  · intro hok
    constructor <;> simp [download_file_run, hok]
  · intro hok hmid
    constructor <;> simp [download_file_run, hok, hmid, diskGet_diskSet]
  · intro hok hmid
    constructor <;> simp [download_file_run, hok, hmid, diskGet_diskSet]

/-- Closed instance of C1 (amended): the mid-stream-failure branch applied
to the concrete 60-of-100-bytes response, and the non-2xx branch applied to
a failed response over a non-empty disk. -/
theorem claim_C1_witness :
    ((download_file_run [] "out.log".toList respMidFail false).result
        = .error .downloadError
      ∧ diskGet (download_file_run [] "out.log".toList respMidFail false).disk
          "out.log".toList = some 60)
    ∧ (download_file_run [("a".toList, 3)] "out.log".toList
        { ok := false } false).disk = [("a".toList, 3)] := by
  constructor
  · have h := (claim_C1_amended [] "out.log".toList respMidFail false).2.1 rfl rfl
    exact ⟨h.1, h.2⟩
  · exact ((claim_C1_amended [("a".toList, 3)] "out.log".toList
      { ok := false } false).1 rfl).1

/-! ## Claim C8 -/

theorem cumSums_le (l : List Nat) :
    ∀ (acc : Nat), ∀ x ∈ cumSums acc l, x ≤ acc + l.sum := by
  induction l with
  | nil => intro acc x hx; simp [cumSums] at hx
  | cons c cs ih =>
    intro acc x hx
    simp only [cumSums, List.mem_cons] at hx
    rcases hx with rfl | hx
    · simp only [List.sum_cons]; omega
    · have := ih (acc + c) x hx
      simp only [List.sum_cons]
      omega

theorem cumSums_chain (l : List Nat) :
    ∀ (acc : Nat), List.Chain' (· ≤ ·) (cumSums acc l) := by
  induction l with
  | nil => intro acc; simp [cumSums]
  | cons c cs ih =>
    intro acc
    have h := ih (acc + c)
    cases cs with
    | nil => simp [cumSums]
    | cons e es =>
      rw [show cumSums acc (c :: e :: es)
            = (acc + c) :: (acc + c + e) :: cumSums (acc + c + e) es from rfl]
      rw [show cumSums (acc + c) (e :: es)
            = (acc + c + e) :: cumSums (acc + c + e) es from rfl] at h
      exact List.chain'_cons.mpr ⟨Nat.le_add_right _ _, h⟩

theorem chain_append_last (xs : List Nat) (S : Nat)
    (h1 : List.Chain' (· ≤ ·) xs) (h2 : ∀ x ∈ xs, x ≤ S) :
    List.Chain' (· ≤ ·) (xs ++ [S]) := by
  induction xs with
  | nil => simp
  | cons a as ih =>
    cases as with
    | nil =>
      simp only [List.cons_append, List.nil_append]
      exact List.chain'_cons.mpr ⟨h2 a (by simp), by simp⟩
    | cons b bs =>
      simp only [List.cons_append] at *
      refine List.chain'_cons.mpr ⟨(List.chain'_cons.mp h1).1, ?_⟩
      exact ih (List.chain'_cons.mp h1).2 (fun x hx => h2 x (by simp at hx ⊢; tauto))

/-- C8: in a successful download with a progress callback, the callback is
invoked with `(basename, bytes_so_far, total_bytes)` after every chunk when
the server reports a positive content length (one call per chunk carrying
the running byte count), progress is still reported when the content length
is absent (the completion call), the final invocation always satisfies
`bytes_so_far = total_bytes`, and the reported `bytes_so_far` values are
monotonically non-decreasing across the whole call sequence. -/
theorem claim_C8 (d : Disk) (path : Str) (resp : DlResp)
    (hok : resp.ok = true) (hclean : resp.midStreamFail = false) :
    (∀ L, resp.contentLength = some L → 0 < L →
        (download_file_run d path resp true).calls =
          (cumSums 0 resp.chunks).map (fun s => (basename path, s, L))
            ++ [(basename path, resp.chunks.sum, resp.chunks.sum)])
    ∧ (resp.contentLength = none →
        (download_file_run d path resp true).calls =
          [(basename path, resp.chunks.sum, resp.chunks.sum)])
    ∧ (download_file_run d path resp true).calls.getLast? =
        some (basename path, resp.chunks.sum, resp.chunks.sum)
    ∧ List.Chain' (· ≤ ·)
        ((download_file_run d path resp true).calls.map (fun c => c.2.1)) := by
  have hcalls : (download_file_run d path resp true).calls =
      (if decide (0 < resp.contentLength.getD 0) = true then
        (cumSums 0 resp.chunks).map
          (fun s => (basename path, s, resp.contentLength.getD 0))
      else [])
        ++ [(basename path, resp.chunks.sum, resp.chunks.sum)] := by
    simp [download_file_run, hok, hclean]
  refine ⟨?_, ?_, ?_, ?_⟩
  · intro L hL hpos
    rw [hcalls, hL]
    simp [hpos]
  · intro hL
    rw [hcalls, hL]
    simp
  · rw [hcalls]
    exact List.getLast?_concat _
  · rw [hcalls]
    by_cases h : decide (0 < resp.contentLength.getD 0) = true
    · rw [if_pos h]
      rw [List.map_append, List.map_map]
      have hproj : ((fun c : Str × Nat × Nat => c.2.1) ∘
          (fun s => (basename path, s, resp.contentLength.getD 0)))
          = id := by funext s; rfl
      rw [hproj, List.map_id]
      simp only [List.map_cons, List.map_nil]
      exact chain_append_last _ _ (cumSums_chain _ 0)
        (fun x hx => by simpa using cumSums_le _ 0 x hx)
    · rw [if_neg h]
      simp

/-- Closed instance of C8: the two-chunk response with content length 100
produces a call after each chunk plus the completion call, and the
content-length-free variant produces exactly the completion call. -/
theorem claim_C8_witness :
    (download_file_run [] "a/out.log".toList respTwoChunks true).calls =
      [("out.log".toList, 60, 100), ("out.log".toList, 100, 100),
       ("out.log".toList, 100, 100)]
    ∧ (download_file_run [] "a/out.log".toList respNoLength true).calls =
      [("out.log".toList, 100, 100)] := by
  constructor
  · have h := (claim_C8 [] "a/out.log".toList respTwoChunks rfl rfl).1 100 rfl
      (by decide)
    exact h
  · exact (claim_C8 [] "a/out.log".toList respNoLength rfl rfl).2.1 rfl

/-! ## Claim C6 -/

theorem download_file_run_result (d : Disk) (path : Str) (resp : DlResp)
    (cb : Bool) :
    (download_file_run d path resp cb).result =
      if resp.ok && !resp.midStreamFail then .ok path
      else .error .downloadError := by
  by_cases h1 : resp.ok <;> by_cases h2 : resp.midStreamFail <;>
    simp [download_file_run, h1, h2]

theorem download_single_file_spec (net : Str → Str → DlResp) (outdir : Str)
    (cb : Bool) (d : Disk) (f : FileInfo) :
    (download_single_file net outdir none cb d f).2.1 = succPath net outdir f
    ∧ (download_single_file net outdir none cb d f).2.2 = fileEvs net f := by
  unfold download_single_file succPath fileEvs
  cases hn : f.name with
  | none => simp
  | some n =>
    by_cases he : n = []
    · simp [he]
    · simp only [Option.getD_some, he, if_neg he, ite_false]
      rw [download_file_run_result]
      by_cases hr : (net (f.api_type.getD ENDPOINT_FILE) n).ok
          && !(net (f.api_type.getD ENDPOINT_FILE) n).midStreamFail
      · simp [hr]
      · simp [hr]

theorem download_go_spec (net : Str → Str → DlResp) (outdir : Str) (cb : Bool) :
    ∀ (files : List FileInfo) (d : Disk),
      (download_match_files_go net outdir none cb d files).2.1
          = files.filterMap (succPath net outdir)
      ∧ (download_match_files_go net outdir none cb d files).2.2
          = files.flatMap (fileEvs net) := by
  intro files
  induction files with
  | nil => intro d; exact ⟨rfl, rfl⟩
  | cons f fs ih =>
    intro d
    have hf := download_single_file_spec net outdir cb d f
    have hrest := ih (download_single_file net outdir none cb d f).1
    constructor
    · show (download_single_file net outdir none cb d f).2.1.toList
          ++ (download_match_files_go net outdir none cb
                (download_single_file net outdir none cb d f).1 fs).2.1
          = (f :: fs).filterMap (succPath net outdir)
      rw [hf.1, hrest.1, List.filterMap_cons]
      cases succPath net outdir f <;> simp
    · show (download_single_file net outdir none cb d f).2.2
          ++ (download_match_files_go net outdir none cb
                (download_single_file net outdir none cb d f).1 fs).2.2
          = (f :: fs).flatMap (fileEvs net)
      rw [hf.2, hrest.2]
      simp [List.flatMap_cons]

/-- C6: per-file download failure is isolated in batch downloads —
`download_match_files` (with the default naming scheme) always returns
normally, and its returned sequence is exactly the local paths of the
descriptors whose transfer succeeded, in input order: a failing file
contributes a warning event instead of a path and aborts nothing.  (Both
the sequential and the concurrent `executor.map` branch produce this
value.)  In particular, for 3 requested files with file #2 failing it
returns exactly the 2 paths of files #1 and #3. -/
theorem claim_C6 (net : Str → Str → DlResp) (files : List FileInfo)
    (outdir : Str) (cb : Bool) (d : Disk) :
    download_match_files net files outdir none cb d =
      .ok ((download_match_files_go net outdir none cb d files).1,
        files.filterMap (succPath net outdir),
        files.flatMap (fileEvs net)) := by
  unfold download_match_files
  rw [show download_match_files_go net outdir none cb d files
      = ((download_match_files_go net outdir none cb d files).1,
         (download_match_files_go net outdir none cb d files).2.1,
         (download_match_files_go net outdir none cb d files).2.2) from rfl]
  rw [(download_go_spec net outdir cb files d).1,
      (download_go_spec net outdir cb files d).2]

/-! ## Claim C10 -/

/-- C10: a descriptor whose `name` field is missing or empty is skipped
silently by both batch download operations — removing it from the input
changes nothing at all (same disk, same returned paths, same events: hence
no download attempt, no warning, no exception, no entry in the result). -/
theorem claim_C10 (net : Str → Str → DlResp) (outdir : Str) (cb : Bool)
    (f : FileInfo) (hf : f.name = none ∨ f.name = some [])
    (files1 files2 : List FileInfo) (d : Disk) :
    download_match_files net (files1 ++ f :: files2) outdir none cb d
      = download_match_files net (files1 ++ files2) outdir none cb d
    ∧ downloadAllLoop net outdir none d (files1 ++ f :: files2)
      = downloadAllLoop net outdir none d (files1 ++ files2) := by
  have hskip : ∀ d' : Disk,
      download_single_file net outdir none cb d' f = (d', none, []) := by
    intro d'
    rcases hf with h | h <;> simp [download_single_file, h]
  constructor
  · unfold download_match_files
    congr 1
    induction files1 generalizing d with
    | nil => simp [download_match_files_go, hskip d]
    | cons a as ih => simp [download_match_files_go, ih]
  · induction files1 generalizing d with
    | nil =>
      rcases hf with h | h <;> simp [downloadAllLoop, h]
    | cons a as ih => simp [downloadAllLoop, ih]

/-- Closed instance of C10: inserting an empty-named descriptor between two
real ones changes neither batch operation's outcome. -/
theorem claim_C10_witness :
    download_match_files netOk [fileRec1, emptyNameRec, fileRec3]
        "o".toList none false []
      = download_match_files netOk [fileRec1, fileRec3] "o".toList none false []
    ∧ downloadAllLoop netOk "o".toList none [] [fileRec1, emptyNameRec, fileRec3]
      = downloadAllLoop netOk "o".toList none [] [fileRec1, fileRec3] :=
  claim_C10 netOk "o".toList false emptyNameRec (Or.inr rfl)
    [fileRec1] [fileRec3] []

/-! ## Claim C7 -/

theorem tagApi_map_idem (e : Str) (l : List FileInfo) :
    (l.map (tagApi e)).map (tagApi e) = l.map (tagApi e) := by
  induction l with
  | nil => rfl
  | cons a as ih => simp [tagApi, ih]

theorem gatherFoldl (g : Str → List FileInfo × List Ev) :
    ∀ (eps : List Str) (acc : List FileInfo × List Ev),
      (eps.foldl (fun acc endp =>
          let c := g endp
          (acc.1 ++ c.1, acc.2 ++ c.2)) acc).1
        = acc.1 ++ eps.flatMap (fun e => (g e).1) := by
  intro eps
  induction eps with
  | nil => intro acc; simp
  | cons e es ih => intro acc; simp [ih]

/-- C7 counterexample: requesting COMBAT_LOG with session id "S1" against a
match whose only combat log is named `CombatLog_X.log` (which does not
contain "S1") downloads that file instead of failing with
`FileNotFoundException` — the filters do not combine as a strict logical
AND. -/
theorem claim_C7_cex :
    (download_match_file_by_type bCombatOnly netOk .COMBAT_LOG
        (some "S1".toList) "o".toList none []).2.1
      = .ok ["o/CombatLog_X.log".toList]
    ∧ containsSub "CombatLog_X.log".toList "S1".toList = false := ⟨rfl, rfl⟩

/-- C7 amended: in `download_match_file_by_type`, within each endpoint the
session filter applies only when it is non-vacuous — the endpoint
contributes the type-matching files whose names contain the session id if
at least one does, and otherwise falls back to all of the endpoint's
type-matching files; consequently an endpoint's contribution is empty
exactly when it has no type-matching files at all, and
`FileNotFoundException` is raised exactly when every consulted endpoint's
contribution is empty — the session id never influences that failure. -/
theorem claim_C7_amended (b : Backend) (ft : FileType) (s : Str)
    (net : Str → Str → DlResp) (outdir : Str) (d : Disk)
    (hs : s ≠ []) (hgate : b.fetchMatch = .success) :
    (∀ endp files, b.listFiles endp = .ok files →
        (byTypeEndpointPass b ft (some s) endp).1 =
          (let tf := (files.map (tagApi endp)).filter
              (fun f => decide (identify_file_type (f.name.getD []) = some ft))
           let flt := tf.filter (fun f => containsSub (f.name.getD []) s)
           if flt = [] then tf else flt))
    ∧ (∀ endp files, b.listFiles endp = .ok files →
        ((byTypeEndpointPass b ft (some s) endp).1 = [] ↔
          (files.map (tagApi endp)).filter
              (fun f => decide (identify_file_type (f.name.getD []) = some ft))
            = []))
    ∧ ((download_match_file_by_type b net ft (some s) outdir none d).2.1
          = .error .fileNotFound
        ↔ ∀ endp ∈ get_endpoints_for_file_type ft,
            (byTypeEndpointPass b ft (some s) endp).1 = []) := by
  have hpass : ∀ endp files, b.listFiles endp = .ok files →
      (byTypeEndpointPass b ft (some s) endp).1 =
        (let tf := (files.map (tagApi endp)).filter
            (fun f => decide (identify_file_type (f.name.getD []) = some ft))
         let flt := tf.filter (fun f => containsSub (f.name.getD []) s)
         if flt = [] then tf else flt) := by
    intro endp files hfiles
    unfold byTypeEndpointPass
    rw [show list_match_files b endp
        = (.ok (files.map (tagApi endp)),
           [.fetchMatchCall, .listCall endp]) from by
      simp [list_match_files, check_match_exists, hgate, hfiles]]
    simp only [tagApi_map_idem]
    set tf := (files.map (tagApi endp)).filter
        (fun f => decide (identify_file_type (f.name.getD []) = some ft)) with htf
    set flt := tf.filter (fun f => containsSub (f.name.getD []) s) with hflt
    by_cases h1 : tf = []
    · have h2 : flt = [] := by rw [hflt, h1]; rfl
      simp [h1, h2, hs]
    · by_cases h2 : flt = []
      · simp [h1, h2, hs]
      · simp [h1, h2, hs]
  have hgather : (byTypeGather b ft (some s)).1
      = (get_endpoints_for_file_type ft).flatMap
          (fun e => (byTypeEndpointPass b ft (some s) e).1) := by
    unfold byTypeGather
    rw [gatherFoldl (byTypeEndpointPass b ft (some s))
      (get_endpoints_for_file_type ft) ([], [])]
    rfl
  refine ⟨hpass, ?_, ?_⟩
  · intro endp files hfiles
    rw [hpass endp files hfiles]
    set tf := (files.map (tagApi endp)).filter
        (fun f => decide (identify_file_type (f.name.getD []) = some ft)) with htf
    set flt := tf.filter (fun f => containsSub (f.name.getD []) s) with hflt
    by_cases h2 : flt = []
    · rw [if_pos h2]
    · rw [if_neg h2]
      constructor
      · intro h; exact absurd h h2
      · intro h
        exact absurd (by rw [hflt, h]; rfl : flt = []) h2
  · unfold download_match_file_by_type
    rw [hgather]
    by_cases h : (get_endpoints_for_file_type ft).flatMap
        (fun e => (byTypeEndpointPass b ft (some s) e).1) = []
    · simp only [h, ite_true]
      constructor
      · intro _
        intro endp hendp
        have := List.flatMap_eq_nil_iff.mp h
        exact this _ hendp
      · intro _; trivial
    · simp only [h, ite_false]
      constructor
      · intro hq; exact absurd hq (by simp)
      · intro hall
        exact absurd (List.flatMap_eq_nil_iff.mpr hall) h

/-- Closed instance of C7 (amended): with one combat log not containing the
requested session id "S1", the primary endpoint's contribution falls back
to that combat log. -/
theorem claim_C7_witness :
    (byTypeEndpointPass bCombatOnly .COMBAT_LOG (some "S1".toList)
        ENDPOINT_FILE).1 = [tagApi ENDPOINT_FILE primRec] := by
  have h := (claim_C7_amended bCombatOnly .COMBAT_LOG "S1".toList netOk
      "o".toList [] (by decide) rfl).1 ENDPOINT_FILE [primRec] rfl
  rw [h]
  rfl

/-! ## Claim C9 -/

/-- C9 (against the spec-modelled `extract_session_id`, whose definition is
absent from the sources): given a filename and the known type leading
literals, the function strips the matched literal and the trailing
extension and returns the remainder exactly when it is 36 characters long
(UUID length), returning null otherwise (including when no literal
matches); and the session resolution of `download_combat_log` /
`download_chat_log` falls back to it exactly when the endpoint metadata
lacks a session id. -/
theorem claim_C9 (pfxs : List Str) (name : Str) :
    (∀ p, pfxs.find? (fun q => strStarts q name) = some p →
        extract_session_id pfxs name =
          (if (dropExtension (name.drop p.length)).length = 36
           then some (dropExtension (name.drop p.length)) else none))
    ∧ (pfxs.find? (fun q => strStarts q name) = none →
        extract_session_id pfxs name = none)
    ∧ (∀ r, extract_session_id pfxs name = some r → r.length = 36)
    ∧ (∀ metaSid : Option Str, (metaSid = none ∨ metaSid = some []) →
        resolve_session_id metaSid name = extract_session_id KNOWN_PFXS name) := by
  refine ⟨?_, ?_, ?_, ?_⟩
  · intro p hp
    unfold extract_session_id
    rw [hp]
  · intro hp
    unfold extract_session_id
    rw [hp]
  · intro r hr
    unfold extract_session_id at hr
    cases hfind : pfxs.find? (fun q => strStarts q name) with
    | none => rw [hfind] at hr; cases hr
    | some p =>
      rw [hfind] at hr
      have hr2 : (if (dropExtension (name.drop p.length)).length = 36
          then some (dropExtension (name.drop p.length)) else none) = some r := hr
      by_cases hl : (dropExtension (name.drop p.length)).length = 36
      · rw [if_pos hl] at hr2
        injection hr2 with h
        rw [← h]; exact hl
      · rw [if_neg hl] at hr2; cases hr2
  · intro metaSid hm
    rcases hm with rfl | rfl <;> simp [resolve_session_id]

/-- Closed instance of C9: a combat-log filename embedding a 36-character
UUID yields that UUID (both directly and through the metadata-absent
fallback of the log downloaders), while a short remainder yields null. -/
theorem claim_C9_witness :
    extract_session_id KNOWN_PFXS
        "CombatLog_123e4567-e89b-12d3-a456-426614174000.log".toList
      = some "123e4567-e89b-12d3-a456-426614174000".toList
    ∧ resolve_session_id none
        "CombatLog_123e4567-e89b-12d3-a456-426614174000.log".toList
      = some "123e4567-e89b-12d3-a456-426614174000".toList
    ∧ extract_session_id KNOWN_PFXS "CombatLog_short.log".toList = none := by
  have h1 := (claim_C9 KNOWN_PFXS
      "CombatLog_123e4567-e89b-12d3-a456-426614174000.log".toList).1
      "CombatLog_".toList (by decide)
  have h4 := (claim_C9 KNOWN_PFXS
      "CombatLog_123e4567-e89b-12d3-a456-426614174000.log".toList).2.2.2
      none (Or.inl rfl)
  have h3 := (claim_C9 KNOWN_PFXS "CombatLog_short.log".toList).1
      "CombatLog_".toList (by decide)
  refine ⟨?_, ?_, ?_⟩
  · rw [h1]; decide
  · rw [h4, h1]; decide
  · rw [h3]; decide

end FilesApi
